import Mathlib

/-!
Verification of the servo-controller scripts of the `raspberry_projects`
repository.  The scripts read game-controller events and translate them into
PWM commands for up to four hobby servos.  This file gives a shallow
embedding of the servo-related functions of

* `controllers/unified_controller/unified_controller.py`  (namespace `Unified`)
* `controllers/xbox_controller/xbox_controller_reader_v11.py` (namespace `XV11`)
* `gpio/servo_controller_web_ui/servo_controller_best.py`  (namespace `SCB`)
* `gpio/servo_controller_web_ui/servo_controller.py`       (namespace `SC`)

and proves the stated properties of the joystick-to-PWM mapping, the
hold/lock gating, the speed-scaled interpolation, CSV playback and the
MPU6050 register decoding.

Numeric modelling: Python evaluates the conversion formulas in `float` and
truncates with `int()`.  All formulas here are evaluated in exact rational
arithmetic with truncation toward zero (`pyInt` below).  On the bounded
domains appearing in the claims the double-precision evaluation and the
exact evaluation agree, so the rational reading is faithful.
-/

namespace RaspberryServo

/-- Python `int()` applied to an exact rational value: truncation toward
zero.  `Int.tdiv` is T-division, which truncates toward zero exactly as
CPython `int()` does on a float/fraction. -/
def pyInt (q : ℚ) : ℤ := Int.tdiv q.num q.den

/-- On nonnegative arguments truncation toward zero and floor agree. -/
theorem pyInt_eq_floor {q : ℚ} (h : 0 ≤ q) : pyInt q = ⌊q⌋ := by
  rw [Rat.floor_def, pyInt]
  exact Int.tdiv_eq_ediv (Rat.num_nonneg.2 h) (Int.ofNat_nonneg _)

/-- SERVO_MIN = 150, minimum pulse length (identical in every script). -/
def SERVO_MIN : ℤ := 150

/-- SERVO_MAX = 600, maximum pulse length (identical in every script). -/
def SERVO_MAX : ℤ := 600

/-- SERVO_RANGE = 180, servo range in degrees (identical in every script). -/
def SERVO_RANGE : ℤ := 180

/-- SERVO_CHANNELS = [0, 1, 2, 3], the four servo channels. -/
def SERVO_CHANNELS : List Nat := [0, 1, 2, 3]

/-- The pulse expression `int(SERVO_MIN + (angle / SERVO_RANGE) * (SERVO_MAX -
SERVO_MIN))` that each script computes from an angle, read in exact rational
arithmetic. -/
def pulseOfAngle (angle : ℤ) : ℤ :=
  pyInt ((SERVO_MIN : ℚ) + (angle : ℚ) / (SERVO_RANGE : ℚ) * ((SERVO_MAX : ℚ) - (SERVO_MIN : ℚ)))

/-- A call `pwm.set_pwm(channel, on, off)` issued to the PCA9685 driver. -/
structure PwmCmd where
  channel : Nat
  onCount : ℤ
  offCount : ℤ
deriving Repr, DecidableEq

/-- Lookup in a Python dict modelled as an association list.  The scripts
only ever index `hold_state` / `servo_positions` with keys that are present,
so the default is never reached on the reachable states. -/
def dictGet {α : Type} (d : List (Nat × α)) (k : Nat) (dflt : α) : α :=
  (((d.find? (fun p => p.1 == k)).map (fun p => p.2)).getD dflt)

/-- Assignment `d[k] = v` on a Python dict modelled as an association list:
an existing key is updated in place, a new key is appended. -/
def dictSet {α : Type} (d : List (Nat × α)) (k : Nat) (v : α) : List (Nat × α) :=
  if d.any (fun p => p.1 == k) then
    d.map (fun p => if p.1 == k then (k, v) else p)
  else d ++ [(k, v)]

/-- Key set of a Python dict modelled as an association list. -/
def dictKeys {α : Type} (d : List (Nat × α)) : List Nat := d.map Prod.fst

namespace Unified

/-- The function `joystick_to_pwm(value)` of `unified_controller.py`
(lines 71-75):
`angle = int(((value + 32767) / 65534) * SERVO_RANGE)` and
`pwm_value = int(SERVO_MIN + (angle / SERVO_RANGE) * (SERVO_MAX - SERVO_MIN))`,
returning `(pwm_value, angle)`. -/
def joystick_to_pwm (value : ℤ) : ℤ × ℤ :=
  let angle := pyInt (((value : ℚ) + 32767) / 65534 * (SERVO_RANGE : ℚ))
  let pwm_value := pulseOfAngle angle
  (pwm_value, angle)

/-- The function `accelerometer_to_pwm(value, center, range)` of
`unified_controller.py` (lines 77-83).  `range / 2` is Python true division,
kept exact here. -/
def accelerometer_to_pwm (value center rangeArg : ℤ) : ℤ × ℤ :=
  let normalized : ℚ :=
    max 0 (min (SERVO_RANGE : ℚ)
      (((value : ℚ) - (center : ℚ) + (rangeArg : ℚ) / 2) / (rangeArg : ℚ) * (SERVO_RANGE : ℚ)))
  let angle := pyInt normalized
  let pwm_value := pulseOfAngle angle
  (pwm_value, angle)

/-- The mutable globals of `unified_controller.py` that the servo operations
touch: `hold_state`, `lock_state`, `servo_positions` and `servo_speed`. -/
structure UState where
  hold : List (Nat × Bool)
  lock : Bool
  positions : List (Nat × ℤ)
  speed : ℚ
deriving Repr, DecidableEq

/-- The initial globals of `unified_controller.py` (lines 28-31). -/
def initU : UState :=
  { hold := [(0, false), (1, false), (2, false), (3, false)]
    lock := false
    positions := [(0, 90), (1, 90), (2, 90), (3, 90)]
    speed := 1 }

/-- The function `move_servo(channel, value)` of `unified_controller.py`
(lines 85-96).  It returns early when `lock_state or hold_state[channel]`,
otherwise stores the new angle and, when `PWM_AVAILABLE and pwm`, issues
`pwm.set_pwm(channel, 0, pwm_value)`. -/
def move_servo (pwmAvailable : Bool) (s : UState) (channel : Nat) (value : ℤ) :
    UState × List PwmCmd :=
  if s.lock || dictGet s.hold channel false then (s, [])
  else
    let pa := joystick_to_pwm value
    ({ s with positions := dictSet s.positions channel pa.2 },
     if pwmAvailable then [⟨channel, 0, pa.1⟩] else [])

/-- The function `move_servo_accel(channel, value, center, range)` of
`unified_controller.py` (lines 98-109); same gating as `move_servo`. -/
def move_servo_accel (pwmAvailable : Bool) (s : UState) (channel : Nat)
    (value center rangeArg : ℤ) : UState × List PwmCmd :=
  if s.lock || dictGet s.hold channel false then (s, [])
  else
    let pa := accelerometer_to_pwm value center rangeArg
    ({ s with positions := dictSet s.positions channel pa.2 },
     if pwmAvailable then [⟨channel, 0, pa.1⟩] else [])

/-- The function `move_all_servos(angle)` of `unified_controller.py`
(lines 111-123).  It returns early when `lock_state` (only); otherwise it
writes the angle to every channel of `SERVO_CHANNELS`, issuing a PWM command
per channel when hardware is present.  Note it does not consult
`hold_state`. -/
def move_all_servos (pwmAvailable : Bool) (s : UState) (angle : ℤ) :
    UState × List PwmCmd :=
  if s.lock then (s, [])
  else
    let pwm_value := pulseOfAngle angle
    SERVO_CHANNELS.foldl
      (fun acc channel =>
        ({ acc.1 with positions := dictSet acc.1.positions channel angle },
         acc.2 ++ (if pwmAvailable then [⟨channel, 0, pwm_value⟩] else [])))
      (s, [])

/-- The speed increase `servo_speed = min(servo_speed + 0.1, 2.0)` of
`unified_controller.py` (lines 304, 380, 410) and
`xbox_controller_reader_v11.py` (line 140). -/
def speed_inc (s : ℚ) : ℚ := min (s + 1/10) 2

/-- The speed decrease `servo_speed = max(servo_speed - 0.1, 0.1)` of
`unified_controller.py` (lines 299, 376, 414) and
`xbox_controller_reader_v11.py` (line 145). -/
def speed_dec (s : ℚ) : ℚ := max (s - 1/10) (1/10)

/-- The semantic commands dispatched by the event loop of
`run_controller_mode` (lines 282-430): per-channel joystick moves,
accelerometer moves, move-all, hold toggles, the lock toggle, speed changes
and the three-step calibration sequence. -/
inductive UEvent where
  | joy (channel : Nat) (value : ℤ)
  | accel (channel : Nat) (value center rangeArg : ℤ)
  | allServos (angle : ℤ)
  | toggleHold (channel : Nat)
  | toggleLock
  | speedUp
  | speedDown
  | calibrate
deriving Repr, DecidableEq

/-- One iteration of the event loop of `unified_controller.py` acting on the
globals, returning the new globals and the PWM commands issued. -/
def ustep (pwmAvailable : Bool) (s : UState) (e : UEvent) : UState × List PwmCmd :=
  match e with
  | .joy channel value => move_servo pwmAvailable s channel value
  | .accel channel value center rangeArg =>
      move_servo_accel pwmAvailable s channel value center rangeArg
  | .allServos angle => move_all_servos pwmAvailable s angle
  | .toggleHold channel =>
      ({ s with hold := dictSet s.hold channel (!dictGet s.hold channel false) }, [])
  | .toggleLock => ({ s with lock := !s.lock }, [])
  | .speedUp => ({ s with speed := speed_inc s.speed }, [])
  | .speedDown => ({ s with speed := speed_dec s.speed }, [])
  | .calibrate =>
      let r0 := move_all_servos pwmAvailable s 0
      let r1 := move_all_servos pwmAvailable r0.1 180
      let r2 := move_all_servos pwmAvailable r1.1 90
      (r2.1, r0.2 ++ r1.2 ++ r2.2)

/-- Constant `ecodes.EV_KEY`. -/
def EV_KEY : Nat := 1

/-- Constant `ecodes.EV_ABS`. -/
def EV_ABS : Nat := 3

/-- The `EV_ABS` dispatch of `run_controller_mode` (lines 284-341): joystick
codes 0-3 drive channels 0-3; D-pad hat codes 16/17 change speed, centre all
servos or toggle the lock; for PS3 controllers the motion-sensor codes
18/19/23/24 drive channels 0-3 via `move_servo_accel(ch, value, 127, 254)`,
but only when there was no joystick activity for one second (`idle`). -/
def decode_abs (isPS3 idle : Bool) (code : Nat) (value : ℤ) : Option UEvent :=
  if code = 0 then some (.joy 0 value)
  else if code = 1 then some (.joy 1 value)
  else if code = 2 then some (.joy 2 value)
  else if code = 3 then some (.joy 3 value)
  else if code = 16 then
    (if value = -1 then some .speedDown else if value = 1 then some .speedUp else none)
  else if code = 17 then
    (if value = -1 then some (.allServos 90) else if value = 1 then some .toggleLock else none)
  else if isPS3 ∧ idle ∧ code = 18 then some (.accel 0 value 127 254)
  else if isPS3 ∧ idle ∧ code = 19 then some (.accel 1 value 127 254)
  else if isPS3 ∧ idle ∧ code = 23 then some (.accel 2 value 127 254)
  else if isPS3 ∧ idle ∧ code = 24 then some (.accel 3 value 127 254)
  else none

/-- The `EV_KEY` dispatch of `run_controller_mode` (lines 345-430); only
button-down events (`event.value == 1`) are handled.  PS3 uses the observed
raw codes, other controllers the `ecodes.BTN_*` constants (BTN_SOUTH=304,
BTN_EAST=305, BTN_NORTH=307, BTN_WEST=308, BTN_TL=310, BTN_TR=311,
BTN_SELECT=314, BTN_DPAD_UP=544, BTN_DPAD_DOWN=545, BTN_DPAD_LEFT=546,
BTN_DPAD_RIGHT=547).  This is the PS3 half (lines 347-386). -/
def decode_key_ps3 (code : Nat) : Option UEvent :=
  if code = 304 then some (.toggleHold 0)
  else if code = 305 then some (.toggleHold 1)
  else if code = 308 then some (.toggleHold 2)
  else if code = 307 then some (.toggleHold 3)
  else if code = 291 then some .calibrate
  else if code = 294 then some .speedDown
  else if code = 295 then some .speedUp
  else if code = 298 then some (.allServos 0)
  else if code = 299 then some (.allServos 180)
  else none

/-- The non-PS3 half of the `EV_KEY` dispatch (lines 388-430). -/
def decode_key_other (code : Nat) : Option UEvent :=
  if code = 304 then some (.toggleHold 0)
  else if code = 305 then some (.toggleHold 1)
  else if code = 308 then some (.toggleHold 2)
  else if code = 307 then some (.toggleHold 3)
  else if code = 314 then some .calibrate
  else if code = 311 then some .speedUp
  else if code = 310 then some .speedDown
  else if code = 547 then some (.allServos 180)
  else if code = 546 then some (.allServos 0)
  else if code = 544 then some (.allServos 90)
  else if code = 545 then some .toggleLock
  else none

/-- The `EV_KEY` dispatch: only button-down events are handled, then the
PS3 or the generic button map applies. -/
def decode_key (isPS3 : Bool) (code : Nat) (value : ℤ) : Option UEvent :=
  if value ≠ 1 then none
  else if isPS3 then decode_key_ps3 code
  else decode_key_other code

/-- Full event dispatch of `run_controller_mode` on a raw input event. -/
def decode_event (isPS3 idle : Bool) (etype code : Nat) (value : ℤ) : Option UEvent :=
  if etype = EV_ABS then decode_abs isPS3 idle code value
  else if etype = EV_KEY then decode_key isPS3 code value
  else none

end Unified

/-- Value of a decimal digit string, as accumulated by Python `int()`. -/
def natFromDigits (ds : List Char) : Nat :=
  ds.foldl (fun n c => n * 10 + (c.toNat - 48)) 0

/-- Leading- and trailing-whitespace stripping performed by Python `int()`
on its string argument. -/
def pyStrip (cs : List Char) : List Char :=
  ((cs.dropWhile (fun c => c.isWhitespace)).reverse.dropWhile (fun c => c.isWhitespace)).reverse

/-- Python `int(s)` on a string: surrounding whitespace is stripped, an
optional sign is followed by at least one decimal digit; anything else
raises `ValueError`, modelled as `none`. -/
def pyIntOfString (s : String) : Option ℤ :=
  match pyStrip s.data with
  | [] => none
  | c :: cs =>
    let p : ℤ × List Char :=
      if c = '-' then (-1, cs) else if c = '+' then (1, cs) else (1, c :: cs)
    if !p.2.isEmpty && p.2.all (fun d => d.isDigit) then
      some (p.1 * (natFromDigits p.2 : ℤ))
    else none

namespace Unified

/-- The per-row conversion `[int(value) for value in row]` of
`read_angles_from_csv` (line 221); a `ValueError` on any field is `none`. -/
def parseRow (row : List String) : Option (List ℤ) :=
  row.mapM pyIntOfString

/-- The function `read_angles_from_csv(file_path)` of `unified_controller.py`
(lines 213-224), applied to the rows the `csv.reader` yields.  Rows with
exactly four fields are converted with `int` and collected; other rows are
skipped.  An `int` conversion error escapes the loop to the `except` clause,
so the rows collected so far are returned. -/
def read_angles_from_csv : List (List String) → List (List ℤ)
  | [] => []
  | row :: rest =>
    if row.length = 4 then
      match parseRow row with
      | some a => a :: read_angles_from_csv rest
      | none => []
    else read_angles_from_csv rest

/-- The PWM commands one angle row produces in `run_csv_mode`
(lines 237-241): `for i, angle in enumerate(angles): if i <
len(SERVO_CHANNELS): pwm.set_pwm(SERVO_CHANNELS[i], 0, pwm_value)`,
guarded by `PWM_AVAILABLE and pwm`. -/
def run_csv_row (pwmAvailable : Bool) (angles : List ℤ) : List PwmCmd :=
  if pwmAvailable then
    ((angles.enum.filter (fun p => p.1 < SERVO_CHANNELS.length)).map
      (fun p => ⟨SERVO_CHANNELS.getD p.1 0, 0, pulseOfAngle p.2⟩))
  else []

/-- The playback loop of `run_csv_mode` over the parsed angle rows. -/
def run_csv_loop (pwmAvailable : Bool) : List (List ℤ) → List (List PwmCmd)
  | [] => []
  | angles :: rest => run_csv_row pwmAvailable angles :: run_csv_loop pwmAvailable rest

/-- The function `run_csv_mode(csv_file)` of `unified_controller.py`
(lines 226-242), as the per-row batches of PWM commands it issues for the
rows read from the file: nothing when no valid angles were found, otherwise
one batch per parsed row, in file order. -/
def run_csv_mode (pwmAvailable : Bool) (rows : List (List String)) : List (List PwmCmd) :=
  let angles_list := read_angles_from_csv rows
  if angles_list.isEmpty then [] else run_csv_loop pwmAvailable angles_list

end Unified

namespace XV11

/-- The function `joystick_to_pwm(value)` of `xbox_controller_reader_v11.py`
(lines 32-35); textually the same computation as the unified one with the
constants written inline. -/
def joystick_to_pwm (value : ℤ) : ℤ × ℤ :=
  let angle := pyInt (((value : ℚ) + 32767) / 65534 * 180)
  let pwm_value := pyInt ((SERVO_MIN : ℚ) + (angle : ℚ) / 180 * ((SERVO_MAX : ℚ) - (SERVO_MIN : ℚ)))
  (pwm_value, angle)

/-- The mutable globals of `xbox_controller_reader_v11.py` (lines 22-29). -/
structure XState where
  hold : List (Nat × Bool)
  lock : Bool
  positions : List (Nat × ℤ)
  speed : ℚ
deriving Repr, DecidableEq

/-- The initial globals of `xbox_controller_reader_v11.py`: all holds off,
unlocked, resting positions `{0: 53, 1: 74, 2: 41, 3: 91}`, speed 1.0. -/
def initX : XState :=
  { hold := [(0, false), (1, false), (2, false), (3, false)]
    lock := false
    positions := [(0, 53), (1, 74), (2, 41), (3, 91)]
    speed := 1 }

/-- The function `move_servo(channel, value)` of
`xbox_controller_reader_v11.py` (lines 42-53).  It returns early only when
`lock_state`; `hold_state` is not consulted.  The PCA9685 is imported
unconditionally in this script, so a PWM command is always issued. -/
def move_servo (s : XState) (channel : Nat) (value : ℤ) : XState × List PwmCmd :=
  if s.lock then (s, [])
  else
    let pa := joystick_to_pwm value
    ({ s with positions := dictSet s.positions channel pa.2 }, [⟨channel, 0, pa.1⟩])

/-- The function `move_all_servos(angle)` of `xbox_controller_reader_v11.py`
(lines 56-64): gated by `lock_state` only, writing every channel in
`range(4)`. -/
def move_all_servos (s : XState) (angle : ℤ) : XState × List PwmCmd :=
  if s.lock then (s, [])
  else
    let pwm_value := pyInt ((SERVO_MIN : ℚ) + (angle : ℚ) / 180 * ((SERVO_MAX : ℚ) - (SERVO_MIN : ℚ)))
    (List.range 4).foldl
      (fun acc channel =>
        ({ acc.1 with positions := dictSet acc.1.positions channel angle },
         acc.2 ++ [⟨channel, 0, pwm_value⟩]))
      (s, [])

end XV11

namespace SCB

/-- The function `joystick_to_pwm(value)` of `servo_controller_best.py`
(lines 203-207); same formula as the unified one. -/
def joystick_to_pwm (value : ℤ) : ℤ × ℤ :=
  let angle := pyInt (((value : ℚ) + 32767) / 65534 * (SERVO_RANGE : ℚ))
  let pwm_value := pulseOfAngle angle
  (pwm_value, angle)

/-- The function `angle_to_pwm(angle)` of `servo_controller_best.py`
(lines 209-213): the angle is clamped to `[0, 180]` with
`max(0, min(180, angle))` before the pulse formula is applied. -/
def angle_to_pwm (angle : ℤ) : ℤ :=
  let a := max 0 (min 180 angle)
  pulseOfAngle a

/-- The target angle `move_servo` decodes from its input before
interpolation (lines 217-226): for joystick input the value is negated on
channels 0 and 3 and sent through `joystick_to_pwm`; otherwise the value is
already an angle. -/
def targetAngle (channel : Nat) (value : ℤ) (is_joystick : Bool) : ℤ :=
  if is_joystick then
    (joystick_to_pwm (if channel == 0 || channel == 3 then -value else value)).2
  else value

/-- The function `move_servo(channel, value, is_joystick)` of
`servo_controller_best.py` (lines 215-241), as a function of the hold flag
of the channel, the current position and the speed.  When the channel is
held nothing happens; otherwise the target angle is computed, and if it
differs from the current position the movement is limited to
`step = max(1, min(abs(diff), int(abs(diff) * servo_speed)))` in the
direction of the target.  Returns the stored position and the PWM commands
issued. -/
def move_servo (hold : Bool) (channel : Nat) (value : ℤ) (is_joystick : Bool)
    (current : ℤ) (speed : ℚ) : ℤ × List PwmCmd :=
  if hold then (current, [])
  else
    let pa : ℤ × ℤ :=
      if is_joystick then
        joystick_to_pwm (if channel == 0 || channel == 3 then -value else value)
      else (angle_to_pwm value, value)
    let angle_diff := pa.2 - current
    if 0 < |angle_diff| then
      let step := max 1 (min |angle_diff| (pyInt ((|angle_diff| : ℚ) * speed)))
      let angle := if 0 < angle_diff then current + step else current - step
      (angle, [⟨channel, 0, angle_to_pwm angle⟩])
    else (pa.2, [⟨channel, 0, pa.1⟩])

/-- The function `move_all_servos(angle)` of `servo_controller_best.py`
(lines 243-250): unlike the unified script it skips channels whose hold
flag is set. -/
def move_all_servos (hold : List (Nat × Bool)) (positions : List (Nat × ℤ)) (angle : ℤ) :
    List (Nat × ℤ) × List PwmCmd :=
  let pwm_value := angle_to_pwm angle
  SERVO_CHANNELS.foldl
    (fun acc channel =>
      if dictGet hold channel false then acc
      else (dictSet acc.1 channel angle, acc.2 ++ [⟨channel, 0, pwm_value⟩]))
    (positions, [])

/-- The function `read_word(bus, addr, reg)` of `servo_controller_best.py`
(lines 151-155), as a function of the two register bytes it reads:
`(high << 8) + low`. -/
def read_word (high low : ℕ) : ℕ := (high <<< 8) + low

/-- The function `read_word_2c(bus, addr, reg)` of `servo_controller_best.py`
(lines 157-162): the two's-complement reading
`-((65535 - val) + 1)` when `val >= 0x8000`, else `val`. -/
def read_word_2c (high low : ℕ) : ℤ :=
  let val := read_word high low
  if 0x8000 ≤ val then -(((65535 : ℤ) - (val : ℤ)) + 1) else (val : ℤ)

/-- The speed increase `servo_speed = min(2.0, servo_speed + 0.1)` of the
controller reader of `servo_controller_best.py` (line 440). -/
def speed_inc (s : ℚ) : ℚ := min 2 (s + 1/10)

/-- The speed decrease `servo_speed = max(0.1, servo_speed - 0.1)` of the
controller reader of `servo_controller_best.py` (line 435). -/
def speed_dec (s : ℚ) : ℚ := max (1/10) (s - 1/10)

/-- The web `/control` speed command of `ServoHandler.do_POST`
(lines 523-527): the supplied value is clamped with
`max(0.1, min(2.0, servo_speed))`. -/
def webSpeedSet (x : ℚ) : ℚ := max (1/10) (min 2 x)

/-- The initial `hold_state = {0: False, 1: False, 2: False, 3: False}` of
`servo_controller_best.py` (line 50). -/
def hold_state : List (Nat × Bool) := [(0, false), (1, false), (2, false), (3, false)]

/-- The web `/control` hold command of `ServoHandler.do_POST`
(lines 517-521): `hold_state[int(channel)] = bool(state)` for the
web-supplied channel and state, with no validation of the channel, so a
dict assignment to a fresh key inserts that key. -/
def webHoldSet (hold : List (Nat × Bool)) (channel : Nat) (state : Bool) :
    List (Nat × Bool) :=
  dictSet hold channel state

end SCB

namespace SC

/-- The function `angle_to_pwm(angle)` of `servo_controller.py`
(lines 130-133); same computation as in `servo_controller_best.py`. -/
def angle_to_pwm (angle : ℤ) : ℤ :=
  let a := max 0 (min 180 angle)
  pulseOfAngle a

/-- The function `joystick_to_pwm(value)` of `servo_controller.py`
(lines 125-128). -/
def joystick_to_pwm (value : ℤ) : ℤ × ℤ :=
  let angle := pyInt (((value : ℚ) + 32767) / 65534 * (SERVO_RANGE : ℚ))
  let pwm_value := pulseOfAngle angle
  (pwm_value, angle)

/-- The function `move_servo(channel, value, is_joystick)` of
`servo_controller.py` (lines 135-155); the same computation as in
`servo_controller_best.py`, written with a conditional expression. -/
def move_servo (hold : Bool) (channel : Nat) (value : ℤ) (is_joystick : Bool)
    (current : ℤ) (speed : ℚ) : ℤ × List PwmCmd :=
  if hold then (current, [])
  else
    let pa : ℤ × ℤ :=
      if is_joystick then
        joystick_to_pwm (if channel == 0 || channel == 3 then -value else value)
      else (angle_to_pwm value, value)
    let angle_diff := pa.2 - current
    if 0 < |angle_diff| then
      let step := max 1 (min |angle_diff| (pyInt ((|angle_diff| : ℚ) * speed)))
      let angle := if 0 < angle_diff then current + step else current - step
      (angle, [⟨channel, 0, angle_to_pwm angle⟩])
    else (pa.2, [⟨channel, 0, pa.1⟩])

end SC

/-- The speed-changing inputs across the scripts: controller speed-up and
speed-down button events and the web `/control` speed command of
`servo_controller_best.py`. -/
inductive SpeedEvent where
  | inc
  | dec
  | webSet (x : ℚ)
deriving Repr

/-- Effect of one speed-changing input on `servo_speed`, using the update
formulas of `unified_controller.py` / `xbox_controller_reader_v11.py` for
the button events and of `ServoHandler.do_POST` for the web command. -/
def speedStep (s : ℚ) : SpeedEvent → ℚ
  | .inc => Unified.speed_inc s
  | .dec => Unified.speed_dec s
  | .webSet x => SCB.webSpeedSet x

/-- Channels mentioned by a dispatched event.  Every event the
`unified_controller.py` loop dispatches addresses only channels below 4. -/
def eventChannelsOK : Unified.UEvent → Prop
  | .joy channel _ => channel < 4
  | .accel channel _ _ _ => channel < 4
  | .toggleHold channel => channel < 4
  | _ => True

/-! Arithmetic helper lemmas -/

/-- Truncation of an exact nonnegative integer quotient is Euclidean
division. -/
theorem pyInt_intCast_div_natCast (n : ℤ) (d : ℕ) (hn : 0 ≤ n) :
    pyInt ((n : ℚ) / (d : ℚ)) = n / (d : ℤ) := by
  rw [pyInt_eq_floor (div_nonneg (by exact_mod_cast hn) (by positivity))]
  exact_mod_cast Rat.floor_intCast_div_natCast n d

/-- The pulse formula in Euclidean normal form, for nonnegative angles. -/
theorem pulseOfAngle_eq (a : ℤ) (h : 0 ≤ a) :
    pulseOfAngle a = (27000 + 450 * a) / 180 := by
  have hq : (SERVO_MIN : ℚ) + (a : ℚ) / (SERVO_RANGE : ℚ) * ((SERVO_MAX : ℚ) - (SERVO_MIN : ℚ))
      = (((27000 + 450 * a : ℤ) : ℚ)) / ((180 : ℕ) : ℚ) := by
    simp only [SERVO_MIN, SERVO_MAX, SERVO_RANGE]
    push_cast
    field_simp
    ring
  rw [pulseOfAngle, hq, pyInt_intCast_div_natCast _ _ (by omega)]
  norm_num

/-- The joystick angle formula in Euclidean normal form, on the joystick
domain. -/
theorem joystick_angle_eq (v : ℤ) (h : -32767 ≤ v) :
    (Unified.joystick_to_pwm v).2 = ((v + 32767) * 180) / 65534 := by
  have hq : ((v : ℚ) + 32767) / 65534 * (SERVO_RANGE : ℚ)
      = (((v + 32767) * 180 : ℤ) : ℚ) / ((65534 : ℕ) : ℚ) := by
    simp only [SERVO_RANGE]
    push_cast
    field_simp
  show pyInt (((v : ℚ) + 32767) / 65534 * (SERVO_RANGE : ℚ)) = _
  rw [hq, pyInt_intCast_div_natCast _ _ (by nlinarith)]
  norm_num

/-! Claim theorems -/

/-- C9: for every input angle, `angle_to_pwm` clamps to `[0, 180]` and
returns `int(150 + (clamped / 180) * (600 - 150))`, so the result always
lies in `[150, 600]`; this holds identically in `servo_controller_best.py`
and `servo_controller.py`. -/
theorem angle_to_pwm_clamped_bounds :
    ∀ a : ℤ, SCB.angle_to_pwm a = 150 + (max 0 (min 180 a) * 450) / 180
      ∧ 150 ≤ SCB.angle_to_pwm a ∧ SCB.angle_to_pwm a ≤ 600
      ∧ SC.angle_to_pwm a = SCB.angle_to_pwm a := by
  intro a
  have hc0 : 0 ≤ max 0 (min 180 a) := le_max_left _ _
  have hc180 : max 0 (min 180 a) ≤ 180 := by omega
  have he : SCB.angle_to_pwm a = (27000 + 450 * max 0 (min 180 a)) / 180 := by
    rw [SCB.angle_to_pwm, pulseOfAngle_eq _ hc0]
  refine ⟨?_, ?_, ?_, rfl⟩
  · rw [he]; omega
  · rw [he]; omega
  · rw [he]; omega

/-- C10: `read_word_2c` composes two register bytes as `(high << 8) + low`,
an integer in `[0, 65535]`, and returns its two's-complement reading, which
always lies in `[-32768, 32767]`. -/
theorem read_word_2c_twos_complement :
    ∀ high low : ℕ, high ≤ 255 → low ≤ 255 →
      SCB.read_word high low ≤ 65535
      ∧ SCB.read_word_2c high low
          = (if 32768 ≤ SCB.read_word high low then (SCB.read_word high low : ℤ) - 65536
             else (SCB.read_word high low : ℤ))
      ∧ -32768 ≤ SCB.read_word_2c high low ∧ SCB.read_word_2c high low ≤ 32767 := by
  intro high low hh hl
  have hw : SCB.read_word high low = high * 256 + low := by
    simp [SCB.read_word, Nat.shiftLeft_eq]
  have hb : SCB.read_word high low ≤ 65535 := by omega
  refine ⟨hb, ?_, ?_, ?_⟩ <;>
    simp only [SCB.read_word_2c, hw] <;> split <;> push_cast <;> omega

/-- Closed witness for C10 at the byte pair `(0x80, 0x07)`. -/
theorem read_word_2c_twos_complement_witness :
    SCB.read_word 128 7 ≤ 65535
    ∧ SCB.read_word_2c 128 7
        = (if 32768 ≤ SCB.read_word 128 7 then (SCB.read_word 128 7 : ℤ) - 65536
           else (SCB.read_word 128 7 : ℤ))
    ∧ -32768 ≤ SCB.read_word_2c 128 7 ∧ SCB.read_word_2c 128 7 ≤ 32767 :=
  read_word_2c_twos_complement 128 7 (by decide) (by decide)

/-- The `joystick_to_pwm` of `servo_controller_best.py` is the same
function as the unified one (their bodies are identical). -/
theorem SCB_joystick_eq (v : ℤ) : SCB.joystick_to_pwm v = Unified.joystick_to_pwm v := rfl

/-- The `joystick_to_pwm` of `servo_controller.py` is the same function as
the unified one. -/
theorem SC_joystick_eq (v : ℤ) : SC.joystick_to_pwm v = Unified.joystick_to_pwm v := rfl

/-- The `joystick_to_pwm` of `xbox_controller_reader_v11.py` is the same
function as the unified one (constants written inline). -/
theorem XV11_joystick_eq (v : ℤ) : XV11.joystick_to_pwm v = Unified.joystick_to_pwm v := by
  norm_num [XV11.joystick_to_pwm, Unified.joystick_to_pwm, pulseOfAngle,
    SERVO_RANGE, SERVO_MIN, SERVO_MAX]

/-- C1: on the joystick domain `[-32767, 32767]` the angle lies in
`[0, 180]` and the pulse in `[150, 600]`; `-32767` maps to angle 0, `0` to
90, `32767` to 180; and the `joystick_to_pwm` of `servo_controller_best.py`
and of `xbox_controller_reader_v11.py` compute the same function as the
unified one. -/
theorem joystick_to_pwm_range :
    (∀ v : ℤ, -32767 ≤ v → v ≤ 32767 →
        0 ≤ (Unified.joystick_to_pwm v).2 ∧ (Unified.joystick_to_pwm v).2 ≤ 180
        ∧ 150 ≤ (Unified.joystick_to_pwm v).1 ∧ (Unified.joystick_to_pwm v).1 ≤ 600)
    ∧ (Unified.joystick_to_pwm (-32767)).2 = 0
    ∧ (Unified.joystick_to_pwm 0).2 = 90
    ∧ (Unified.joystick_to_pwm 32767).2 = 180
    ∧ (∀ v : ℤ, SCB.joystick_to_pwm v = Unified.joystick_to_pwm v
        ∧ XV11.joystick_to_pwm v = Unified.joystick_to_pwm v) := by
  refine ⟨?_, ?_, ?_, ?_, fun v => ⟨SCB_joystick_eq v, XV11_joystick_eq v⟩⟩
  · intro v h1 h2
    have ha := joystick_angle_eq v h1
    have h0 : 0 ≤ (Unified.joystick_to_pwm v).2 := by rw [ha]; omega
    have h180 : (Unified.joystick_to_pwm v).2 ≤ 180 := by rw [ha]; omega
    have hp : (Unified.joystick_to_pwm v).1 = pulseOfAngle (Unified.joystick_to_pwm v).2 := rfl
    rw [hp, pulseOfAngle_eq _ h0]
    exact ⟨h0, h180, by omega, by omega⟩
  · rw [joystick_angle_eq _ (by norm_num)]; decide
  · rw [joystick_angle_eq _ (by norm_num)]; decide
  · rw [joystick_angle_eq _ (by norm_num)]; decide

/-- Closed witness for C1 at `v = 12345`. -/
theorem joystick_to_pwm_range_witness :
    0 ≤ (Unified.joystick_to_pwm 12345).2 ∧ (Unified.joystick_to_pwm 12345).2 ≤ 180
    ∧ 150 ≤ (Unified.joystick_to_pwm 12345).1 ∧ (Unified.joystick_to_pwm 12345).1 ≤ 600 :=
  joystick_to_pwm_range.1 12345 (by decide) (by decide)

/-- Every speed-changing input keeps `servo_speed` inside `[0.1, 2.0]`. -/
theorem speedStep_bounds (s : ℚ) (e : SpeedEvent) (h1 : 1/10 ≤ s) (h2 : s ≤ 2) :
    1/10 ≤ speedStep s e ∧ speedStep s e ≤ 2 := by
  cases e with
  | inc =>
    simp only [speedStep, Unified.speed_inc]
    exact ⟨le_min (by linarith) (by norm_num), min_le_right _ _⟩
  | dec =>
    simp only [speedStep, Unified.speed_dec]
    exact ⟨le_max_right _ _, max_le (by linarith) (by norm_num)⟩
  | webSet x =>
    simp only [speedStep, SCB.webSpeedSet]
    exact ⟨le_max_left _ _, max_le (by norm_num) (min_le_left _ _)⟩

/-- C8: starting from the initial value 1.0, `servo_speed` stays within
`[0.1, 2.0]` after every sequence of speed-increase events, speed-decrease
events and web `/control` speed commands; and the increase/decrease
formulas of `servo_controller_best.py` coincide with the ones of
`unified_controller.py` / `xbox_controller_reader_v11.py`. -/
theorem servo_speed_invariant :
    (∀ s : ℚ, SCB.speed_inc s = Unified.speed_inc s ∧ SCB.speed_dec s = Unified.speed_dec s)
    ∧ ∀ evs : List SpeedEvent,
        1/10 ≤ evs.foldl speedStep 1 ∧ evs.foldl speedStep 1 ≤ 2 := by
  constructor
  · intro s
    constructor
    · simp only [SCB.speed_inc, Unified.speed_inc]
      exact min_comm _ _
    · simp only [SCB.speed_dec, Unified.speed_dec]
      exact max_comm _ _
  · have key : ∀ (evs : List SpeedEvent) (s : ℚ), 1/10 ≤ s → s ≤ 2 →
        1/10 ≤ evs.foldl speedStep s ∧ evs.foldl speedStep s ≤ 2 := by
      intro evs
      induction evs with
      | nil => intro s h1 h2; exact ⟨h1, h2⟩
      | cons e rest ih =>
        intro s h1 h2
        simp only [List.foldl_cons]
        have hb := speedStep_bounds s e h1 h2
        exact ih _ hb.1 hb.2
    exact fun evs => key evs 1 (by norm_num) (by norm_num)

/-- C3: while `lock_state` is true no event-processing step changes any
entry of `servo_positions` and no PWM command is issued; in particular
`move_servo`, `move_servo_accel` and `move_all_servos` of
`unified_controller.py` and `move_servo` / `move_all_servos` of
`xbox_controller_reader_v11.py` return immediately without modifying
state. -/
theorem lock_state_freezes_all :
    (∀ (pa : Bool) (s : Unified.UState) (e : Unified.UEvent), s.lock = true →
        (Unified.ustep pa s e).1.positions = s.positions ∧ (Unified.ustep pa s e).2 = [])
    ∧ (∀ (pa : Bool) (s : Unified.UState) (channel : Nat) (value : ℤ), s.lock = true →
        Unified.move_servo pa s channel value = (s, []))
    ∧ (∀ (pa : Bool) (s : Unified.UState) (channel : Nat) (value center rangeArg : ℤ),
        s.lock = true →
        Unified.move_servo_accel pa s channel value center rangeArg = (s, []))
    ∧ (∀ (pa : Bool) (s : Unified.UState) (angle : ℤ), s.lock = true →
        Unified.move_all_servos pa s angle = (s, []))
    ∧ (∀ (x : XV11.XState) (channel : Nat) (value : ℤ), x.lock = true →
        XV11.move_servo x channel value = (x, []))
    ∧ (∀ (x : XV11.XState) (angle : ℤ), x.lock = true →
        XV11.move_all_servos x angle = (x, [])) := by
  have hms : ∀ (pa : Bool) (s : Unified.UState) (channel : Nat) (value : ℤ), s.lock = true →
      Unified.move_servo pa s channel value = (s, []) := by
    intro pa s channel value h
    simp [Unified.move_servo, h]
  have hma : ∀ (pa : Bool) (s : Unified.UState) (channel : Nat) (value center rangeArg : ℤ),
      s.lock = true →
      Unified.move_servo_accel pa s channel value center rangeArg = (s, []) := by
    intro pa s channel value center rangeArg h
    simp [Unified.move_servo_accel, h]
  have hall : ∀ (pa : Bool) (s : Unified.UState) (angle : ℤ), s.lock = true →
      Unified.move_all_servos pa s angle = (s, []) := by
    intro pa s angle h
    simp [Unified.move_all_servos, h]
  refine ⟨?_, hms, hma, hall, ?_, ?_⟩
  · intro pa s e h
    cases e <;> simp [Unified.ustep, hms, hma, hall, h]
  · intro x channel value h
    simp [XV11.move_servo, h]
  · intro x angle h
    simp [XV11.move_all_servos, h]

/-- Closed witness for C3: a locked state is frozen by a joystick event. -/
theorem lock_state_freezes_all_witness :
    (Unified.ustep true { Unified.initU with lock := true } (.joy 0 32767)).1.positions
      = ({ Unified.initU with lock := true } : Unified.UState).positions
    ∧ (Unified.ustep true { Unified.initU with lock := true } (.joy 0 32767)).2 = [] :=
  lock_state_freezes_all.1 true { Unified.initU with lock := true } (.joy 0 32767) rfl

/-- C5: with the PCA9685 driver unavailable, every event-processing step of
`unified_controller.py` produces exactly the same state (positions, hold,
lock, speed) as with hardware present, and issues no hardware PWM call. -/
theorem debug_mode_same_positions :
    ∀ (s : Unified.UState) (e : Unified.UEvent),
      (Unified.ustep false s e).1 = (Unified.ustep true s e).1
      ∧ (Unified.ustep false s e).2 = [] := by
  have hms : ∀ (s : Unified.UState) (channel : Nat) (value : ℤ),
      (Unified.move_servo false s channel value).1 = (Unified.move_servo true s channel value).1
      ∧ (Unified.move_servo false s channel value).2 = [] := by
    intro s channel value
    simp only [Unified.move_servo]
    split <;> simp
  have hma : ∀ (s : Unified.UState) (channel : Nat) (value center rangeArg : ℤ),
      (Unified.move_servo_accel false s channel value center rangeArg).1
        = (Unified.move_servo_accel true s channel value center rangeArg).1
      ∧ (Unified.move_servo_accel false s channel value center rangeArg).2 = [] := by
    intro s channel value center rangeArg
    simp only [Unified.move_servo_accel]
    split <;> simp
  have hall : ∀ (s : Unified.UState) (angle : ℤ),
      (Unified.move_all_servos false s angle).1 = (Unified.move_all_servos true s angle).1
      ∧ (Unified.move_all_servos false s angle).2 = [] := by
    intro s angle
    simp only [Unified.move_all_servos]
    split <;> simp [SERVO_CHANNELS]
  intro s e
  cases e with
  | joy channel value => exact hms s channel value
  | accel channel value center rangeArg => exact hma s channel value center rangeArg
  | allServos angle => exact hall s angle
  | toggleHold channel => exact ⟨rfl, rfl⟩
  | toggleLock => exact ⟨rfl, rfl⟩
  | speedUp => exact ⟨rfl, rfl⟩
  | speedDown => exact ⟨rfl, rfl⟩
  | calibrate =>
    simp only [Unified.ustep]
    rw [(hall s 0).1, (hall s 0).2, (hall (Unified.move_all_servos true s 0).1 180).1,
      (hall (Unified.move_all_servos true s 0).1 180).2,
      (hall (Unified.move_all_servos true (Unified.move_all_servos true s 0).1 180).1 90).1,
      (hall (Unified.move_all_servos true (Unified.move_all_servos true s 0).1 180).1 90).2]
    simp

/-- Concrete evaluation of the joystick mapping at full deflection. -/
theorem joystick_full_deflection : Unified.joystick_to_pwm 32767 = (600, 180) := by
  have h2 : (Unified.joystick_to_pwm 32767).2 = 180 := by
    rw [joystick_angle_eq _ (by norm_num)]; decide
  have h1 : (Unified.joystick_to_pwm 32767).1 = 600 := by
    have hp : (Unified.joystick_to_pwm 32767).1
        = pulseOfAngle (Unified.joystick_to_pwm 32767).2 := rfl
    rw [hp, h2, pulseOfAngle_eq _ (by norm_num)]; decide
  exact Prod.ext_iff.mpr ⟨h1, h2⟩

/-- Concrete evaluation of the pulse formula at angle 0. -/
theorem pulseOfAngle_zero : pulseOfAngle 0 = 150 := by
  rw [pulseOfAngle_eq _ le_rfl]; decide

/-- C2 fails on the code: in `xbox_controller_reader_v11.py` the hold flag
is toggled by the buttons but never consulted by `move_servo` (which only
checks `lock_state`, contradicting its own comment "unless hold is
active"), so with `hold_state[0]` true and the lock off a joystick event on
channel 0 still moves the servo from 53 to 180 and issues a PWM command;
and in `unified_controller.py` `move_all_servos` ignores `hold_state`
entirely, overwriting a held channel 0 from 90 to 0 and commanding it.  The
per-channel `move_servo` of `unified_controller.py` does respect the hold
flag.  The states below are the scripts' initial states after the
channel-0 hold button has been pressed once. -/
theorem hold_state_bypass :
    (XV11.move_servo
        (⟨[(0, true), (1, false), (2, false), (3, false)], false,
          [(0, 53), (1, 74), (2, 41), (3, 91)], 1⟩ : XV11.XState) 0 32767).1.positions
      = [(0, 180), (1, 74), (2, 41), (3, 91)]
    ∧ (XV11.move_servo
        (⟨[(0, true), (1, false), (2, false), (3, false)], false,
          [(0, 53), (1, 74), (2, 41), (3, 91)], 1⟩ : XV11.XState) 0 32767).2
      = [⟨0, 0, 600⟩]
    ∧ (Unified.move_all_servos true
        (⟨[(0, true), (1, false), (2, false), (3, false)], false,
          [(0, 90), (1, 90), (2, 90), (3, 90)], 1⟩ : Unified.UState) 0).1.positions
      = [(0, 0), (1, 0), (2, 0), (3, 0)]
    ∧ PwmCmd.mk 0 0 150 ∈ (Unified.move_all_servos true
        (⟨[(0, true), (1, false), (2, false), (3, false)], false,
          [(0, 90), (1, 90), (2, 90), (3, 90)], 1⟩ : Unified.UState) 0).2
    ∧ Unified.move_servo true
        (⟨[(0, true), (1, false), (2, false), (3, false)], false,
          [(0, 90), (1, 90), (2, 90), (3, 90)], 1⟩ : Unified.UState) 0 32767
      = (⟨[(0, true), (1, false), (2, false), (3, false)], false,
          [(0, 90), (1, 90), (2, 90), (3, 90)], 1⟩, []) := by
  have hx : XV11.move_servo
      (⟨[(0, true), (1, false), (2, false), (3, false)], false,
        [(0, 53), (1, 74), (2, 41), (3, 91)], 1⟩ : XV11.XState) 0 32767
      = (⟨[(0, true), (1, false), (2, false), (3, false)], false,
          [(0, 180), (1, 74), (2, 41), (3, 91)], 1⟩, [⟨0, 0, 600⟩]) := by
    simp only [XV11.move_servo, XV11_joystick_eq, joystick_full_deflection]
    decide
  have ha : Unified.move_all_servos true
      (⟨[(0, true), (1, false), (2, false), (3, false)], false,
        [(0, 90), (1, 90), (2, 90), (3, 90)], 1⟩ : Unified.UState) 0
      = (⟨[(0, true), (1, false), (2, false), (3, false)], false,
          [(0, 0), (1, 0), (2, 0), (3, 0)], 1⟩,
         [⟨0, 0, 150⟩, ⟨1, 0, 150⟩, ⟨2, 0, 150⟩, ⟨3, 0, 150⟩]) := by
    simp only [Unified.move_all_servos, pulseOfAngle_zero]
    decide
  refine ⟨?_, ?_, ?_, ?_, by decide⟩
  · rw [hx]
  · rw [hx]
  · rw [ha]
  · rw [ha]; decide

/-- Core of the speed-limited interpolation step of the web-UI
`move_servo`: with a nonzero difference `d = target - current` the stored
angle moves by `max(1, min(|d|, int(|d| * servo_speed)))` toward the
target, never leaves the closed interval between the current position and
the target, and reaches the target whenever the speed is at least 1. -/
theorem interp_core (current t : ℤ) (speed : ℚ) (hs : 0 ≤ speed) (hne : t ≠ current) :
    (if 0 < t - current
     then current + max 1 (min |t - current| (pyInt ((|t - current| : ℚ) * speed)))
     else current - max 1 (min |t - current| (pyInt ((|t - current| : ℚ) * speed))))
      = current + (t - current).sign
          * max 1 (min |t - current| ⌊(|t - current| : ℚ) * speed⌋)
    ∧ min current t
        ≤ (if 0 < t - current
           then current + max 1 (min |t - current| (pyInt ((|t - current| : ℚ) * speed)))
           else current - max 1 (min |t - current| (pyInt ((|t - current| : ℚ) * speed))))
    ∧ (if 0 < t - current
       then current + max 1 (min |t - current| (pyInt ((|t - current| : ℚ) * speed)))
       else current - max 1 (min |t - current| (pyInt ((|t - current| : ℚ) * speed))))
        ≤ max current t
    ∧ (1 ≤ speed →
        (if 0 < t - current
         then current + max 1 (min |t - current| (pyInt ((|t - current| : ℚ) * speed)))
         else current - max 1 (min |t - current| (pyInt ((|t - current| : ℚ) * speed))))
          = t) := by
  have hdne : t - current ≠ 0 := sub_ne_zero.mpr hne
  have h1le : (1 : ℤ) ≤ |t - current| := by
    rcases hdne.lt_or_lt with h | h
    · rw [abs_of_neg h]; omega
    · rw [abs_of_pos h]; omega
  have hfl : pyInt ((|t - current| : ℚ) * speed) = ⌊(|t - current| : ℚ) * speed⌋ :=
    pyInt_eq_floor (mul_nonneg (by positivity) hs)
  rw [hfl]
  have hst1 : 1 ≤ max 1 (min |t - current| ⌊(|t - current| : ℚ) * speed⌋) := le_max_left _ _
  have hstd : max 1 (min |t - current| ⌊(|t - current| : ℚ) * speed⌋) ≤ |t - current| :=
    max_le h1le (min_le_left _ _)
  have hfull : 1 ≤ speed →
      max 1 (min |t - current| ⌊(|t - current| : ℚ) * speed⌋) = |t - current| := by
    intro h1
    have hge : (|t - current| : ℤ) ≤ ⌊(|t - current| : ℚ) * speed⌋ := by
      refine Int.le_floor.mpr ?_
      push_cast
      exact le_mul_of_one_le_right (by positivity) h1
    rw [min_eq_left hge, max_eq_right h1le]
  rcases hdne.lt_or_lt with hneg | hpos
  · have habs : |t - current| = -(t - current) := abs_of_neg hneg
    have hsig : (t - current).sign = -1 := Int.sign_eq_neg_one_iff_neg.mpr hneg
    rw [if_neg (by omega), hsig]
    rw [habs] at hstd hfull
    refine ⟨by ring, ?_, ?_, ?_⟩
    · calc min current t ≤ t := min_le_right _ _
        _ ≤ _ := by omega
    · calc current - max 1 (min |t - current| ⌊(|t - current| : ℚ) * speed⌋)
          ≤ current := by omega
        _ ≤ max current t := le_max_left _ _
    · intro h1
      rw [habs, hfull h1]
      omega
  · have habs : |t - current| = t - current := abs_of_pos hpos
    have hsig : (t - current).sign = 1 := Int.sign_eq_one_iff_pos.mpr hpos
    rw [if_pos hpos, hsig]
    rw [habs] at hstd hfull
    refine ⟨by ring, ?_, ?_, ?_⟩
    · calc min current t ≤ current := min_le_left _ _
        _ ≤ _ := by omega
    · calc current + max 1 (min |t - current| ⌊(|t - current| : ℚ) * speed⌋)
          ≤ t := by omega
        _ ≤ max current t := le_max_right _ _
    · intro h1
      rw [habs, hfull h1]
      omega

/-- C4: in the web-UI `move_servo`, when the channel is not held and the
target angle differs from the current position, the stored position becomes
`current + sign(target - current) * max(1, min(|target - current|,
int(|target - current| * servo_speed)))`; it always lies between the old
position and the target (never overshooting) and equals the target whenever
`servo_speed >= 1`.  The `move_servo` of `servo_controller.py` computes the
same function as the one of `servo_controller_best.py`. -/
theorem move_servo_speed_interpolation :
    (∀ (channel : Nat) (value : ℤ) (is_joystick : Bool) (current : ℤ) (speed : ℚ),
      0 ≤ speed →
      SCB.targetAngle channel value is_joystick ≠ current →
      (SCB.move_servo false channel value is_joystick current speed).1
          = current + (SCB.targetAngle channel value is_joystick - current).sign
              * max 1 (min |SCB.targetAngle channel value is_joystick - current|
                  ⌊(|SCB.targetAngle channel value is_joystick - current| : ℚ) * speed⌋)
        ∧ min current (SCB.targetAngle channel value is_joystick)
            ≤ (SCB.move_servo false channel value is_joystick current speed).1
        ∧ (SCB.move_servo false channel value is_joystick current speed).1
            ≤ max current (SCB.targetAngle channel value is_joystick)
        ∧ (1 ≤ speed →
            (SCB.move_servo false channel value is_joystick current speed).1
              = SCB.targetAngle channel value is_joystick))
    ∧ (∀ (hold : Bool) (channel : Nat) (value : ℤ) (is_joystick : Bool)
        (current : ℤ) (speed : ℚ),
        SC.move_servo hold channel value is_joystick current speed
          = SCB.move_servo hold channel value is_joystick current speed) := by
  refine ⟨?_, fun hold channel value is_joystick current speed => rfl⟩
  intro channel value is_joystick current speed hs hne
  have habs : 0 < |SCB.targetAngle channel value is_joystick - current| :=
    abs_pos.mpr (sub_ne_zero.mpr hne)
  have hred : (SCB.move_servo false channel value is_joystick current speed).1
      = (if 0 < SCB.targetAngle channel value is_joystick - current
         then current + max 1 (min |SCB.targetAngle channel value is_joystick - current|
             (pyInt ((|SCB.targetAngle channel value is_joystick - current| : ℚ) * speed)))
         else current - max 1 (min |SCB.targetAngle channel value is_joystick - current|
             (pyInt ((|SCB.targetAngle channel value is_joystick - current| : ℚ) * speed)))) := by
    cases is_joystick with
    | false =>
      simp only [SCB.targetAngle, Bool.false_eq_true, if_false] at habs ⊢
      simp only [SCB.move_servo, Bool.false_eq_true, if_false, if_pos habs]
      norm_cast
    | true =>
      simp only [SCB.targetAngle, if_true] at habs ⊢
      simp only [SCB.move_servo, Bool.false_eq_true, if_false, if_true, if_pos habs]
      norm_cast
  rw [hred]
  exact interp_core current (SCB.targetAngle channel value is_joystick) speed hs hne

/-- Closed witness for C4: target 100 from current 90 at half speed. -/
theorem move_servo_speed_interpolation_witness :
    (SCB.move_servo false 1 100 false 90 (1/2)).1
        = 90 + (SCB.targetAngle 1 100 false - 90).sign
            * max 1 (min |SCB.targetAngle 1 100 false - 90|
                ⌊(|SCB.targetAngle 1 100 false - 90| : ℚ) * (1/2)⌋)
    ∧ min 90 (SCB.targetAngle 1 100 false) ≤ (SCB.move_servo false 1 100 false 90 (1/2)).1
    ∧ (SCB.move_servo false 1 100 false 90 (1/2)).1 ≤ max 90 (SCB.targetAngle 1 100 false)
    ∧ (1 ≤ (1/2 : ℚ) →
        (SCB.move_servo false 1 100 false 90 (1/2)).1 = SCB.targetAngle 1 100 false) :=
  move_servo_speed_interpolation.1 1 100 false 90 (1/2) (by norm_num) (by decide)

/-- The playback loop issues one command batch per parsed row, in order. -/
theorem run_csv_loop_eq (pa : Bool) :
    ∀ l : List (List ℤ), Unified.run_csv_loop pa l = l.map (Unified.run_csv_row pa) := by
  intro l
  induction l with
  | nil => rfl
  | cons angles rest ih => simp [Unified.run_csv_loop, ih]

/-- C6: `read_angles_from_csv` returns, in file order, one four-element
integer list for each CSV row with exactly four fields, skipping rows with
any other number of fields, provided every four-field row consists of
integer literals; `run_csv_mode` then plays the parsed rows back in that
order, one PWM command batch per row. -/
theorem csv_mode_rows :
    ∀ rows : List (List String),
      (∀ r ∈ rows, r.length = 4 → (Unified.parseRow r).isSome) →
      Unified.read_angles_from_csv rows
          = (rows.filter (fun r => r.length == 4)).filterMap Unified.parseRow
      ∧ ∀ pa : Bool, Unified.run_csv_mode pa rows
          = (Unified.read_angles_from_csv rows).map (Unified.run_csv_row pa) := by
  intro rows hrows
  constructor
  · induction rows with
    | nil => rfl
    | cons r rest ih =>
      by_cases hlen : r.length = 4
      · obtain ⟨a, ha⟩ := Option.isSome_iff_exists.mp (hrows r (List.mem_cons_self r rest) hlen)
        have hrest := ih (fun q hq hq4 => hrows q (List.mem_cons_of_mem r hq) hq4)
        simp [Unified.read_angles_from_csv, hlen, ha, hrest]
      · have hrest := ih (fun q hq hq4 => hrows q (List.mem_cons_of_mem r hq) hq4)
        simp [Unified.read_angles_from_csv, hlen, hrest]
  · intro pa
    rw [Unified.run_csv_mode]
    rcases hcase : Unified.read_angles_from_csv rows with _ | ⟨a, l⟩
    · simp
    · simp [run_csv_loop_eq]

/-- Closed witness for C6: a file with a four-field row, a two-field row
and another four-field row keeps the four-field rows, in order. -/
theorem csv_mode_rows_witness :
    (∀ r ∈ ([["10", "20", "30", "40"], ["5", "6"], ["1", "2", "3", "4"]] : List (List String)),
        r.length = 4 → (Unified.parseRow r).isSome)
    ∧ (Unified.read_angles_from_csv [["10", "20", "30", "40"], ["5", "6"], ["1", "2", "3", "4"]]
        = ((([["10", "20", "30", "40"], ["5", "6"], ["1", "2", "3", "4"]] :
            List (List String)).filter (fun r => r.length == 4)).filterMap Unified.parseRow)
      ∧ ∀ pa : Bool,
          Unified.run_csv_mode pa [["10", "20", "30", "40"], ["5", "6"], ["1", "2", "3", "4"]]
            = (Unified.read_angles_from_csv
                [["10", "20", "30", "40"], ["5", "6"], ["1", "2", "3", "4"]]).map
                (Unified.run_csv_row pa)) :=
  ⟨by decide, csv_mode_rows [["10", "20", "30", "40"], ["5", "6"], ["1", "2", "3", "4"]]
    (by decide)⟩

/-- Updating an existing key of a Python dict leaves its key list
unchanged. -/
theorem dictKeys_dictSet {α : Type} (d : List (Nat × α)) (k : Nat) (v : α)
    (h : k ∈ dictKeys d) : dictKeys (dictSet d k v) = dictKeys d := by
  unfold dictSet
  rw [if_pos]
  · unfold dictKeys
    rw [List.map_map]
    apply List.map_congr_left
    intro p hp
    by_cases hpk : p.1 = k
    · simp [hpk]
    · simp [hpk]
  · rw [List.any_eq_true]
    obtain ⟨p, hp, hpk⟩ := List.mem_map.mp h
    exact ⟨p, hp, by simp [hpk]⟩

/-- A channel below 4 is a key of a dict whose keys are `[0, 1, 2, 3]`. -/
theorem mem_keys_of_lt_four {α : Type} (d : List (Nat × α)) (k : Nat)
    (hk : k < 4) (hkeys : dictKeys d = [0, 1, 2, 3]) : k ∈ dictKeys d := by
  rw [hkeys]
  simp
  omega

/-- The function `move_servo` of the unified script preserves the key sets and commands
only its own channel. -/
theorem move_servo_channels (pa : Bool) (s : Unified.UState) (channel : Nat) (value : ℤ)
    (hch : channel < 4) (hkeys : dictKeys s.positions = [0, 1, 2, 3]) :
    dictKeys (Unified.move_servo pa s channel value).1.positions = [0, 1, 2, 3]
    ∧ (Unified.move_servo pa s channel value).1.hold = s.hold
    ∧ ∀ c ∈ (Unified.move_servo pa s channel value).2, c.channel ∈ SERVO_CHANNELS := by
  unfold Unified.move_servo
  split
  · exact ⟨hkeys, rfl, by simp⟩
  · refine ⟨?_, rfl, ?_⟩
    · show dictKeys (dictSet s.positions channel (Unified.joystick_to_pwm value).2) = _
      rw [dictKeys_dictSet _ _ _ (mem_keys_of_lt_four _ _ hch hkeys)]
      exact hkeys
    · show ∀ c ∈ (if pa then [PwmCmd.mk channel 0 (Unified.joystick_to_pwm value).1] else []),
        c.channel ∈ SERVO_CHANNELS
      cases pa <;> simp [SERVO_CHANNELS] <;> omega

/-- The function `move_servo_accel` of the unified script preserves the key sets and
commands only its own channel. -/
theorem move_servo_accel_channels (pa : Bool) (s : Unified.UState) (channel : Nat)
    (value center rangeArg : ℤ)
    (hch : channel < 4) (hkeys : dictKeys s.positions = [0, 1, 2, 3]) :
    dictKeys (Unified.move_servo_accel pa s channel value center rangeArg).1.positions
      = [0, 1, 2, 3]
    ∧ (Unified.move_servo_accel pa s channel value center rangeArg).1.hold = s.hold
    ∧ ∀ c ∈ (Unified.move_servo_accel pa s channel value center rangeArg).2,
        c.channel ∈ SERVO_CHANNELS := by
  unfold Unified.move_servo_accel
  split
  · exact ⟨hkeys, rfl, by simp⟩
  · refine ⟨?_, rfl, ?_⟩
    · show dictKeys (dictSet s.positions channel
        (Unified.accelerometer_to_pwm value center rangeArg).2) = _
      rw [dictKeys_dictSet _ _ _ (mem_keys_of_lt_four _ _ hch hkeys)]
      exact hkeys
    · show ∀ c ∈ (if pa then
          [PwmCmd.mk channel 0 (Unified.accelerometer_to_pwm value center rangeArg).1] else []),
        c.channel ∈ SERVO_CHANNELS
      cases pa <;> simp [SERVO_CHANNELS] <;> omega

/-- The function `move_all_servos` of the unified script preserves the key sets and
commands only the channels of `SERVO_CHANNELS`. -/
theorem move_all_servos_channels (pa : Bool) (s : Unified.UState) (angle : ℤ)
    (hkeys : dictKeys s.positions = [0, 1, 2, 3]) :
    dictKeys (Unified.move_all_servos pa s angle).1.positions = [0, 1, 2, 3]
    ∧ (Unified.move_all_servos pa s angle).1.hold = s.hold
    ∧ ∀ c ∈ (Unified.move_all_servos pa s angle).2, c.channel ∈ SERVO_CHANNELS := by
  unfold Unified.move_all_servos
  split
  · refine ⟨hkeys, rfl, ?_⟩
    intro c hc
    simp at hc
  · simp only [SERVO_CHANNELS, List.foldl_cons, List.foldl_nil]
    have k0 : dictKeys (dictSet s.positions 0 angle) = [0, 1, 2, 3] := by
      rw [dictKeys_dictSet _ _ _ (mem_keys_of_lt_four _ _ (by omega) hkeys)]; exact hkeys
    have k1 : dictKeys (dictSet (dictSet s.positions 0 angle) 1 angle) = [0, 1, 2, 3] := by
      rw [dictKeys_dictSet _ _ _ (mem_keys_of_lt_four _ _ (by omega) k0)]; exact k0
    have k2 : dictKeys (dictSet (dictSet (dictSet s.positions 0 angle) 1 angle) 2 angle)
        = [0, 1, 2, 3] := by
      rw [dictKeys_dictSet _ _ _ (mem_keys_of_lt_four _ _ (by omega) k1)]; exact k1
    have k3 : dictKeys (dictSet (dictSet (dictSet (dictSet s.positions 0 angle) 1 angle)
        2 angle) 3 angle) = [0, 1, 2, 3] := by
      rw [dictKeys_dictSet _ _ _ (mem_keys_of_lt_four _ _ (by omega) k2)]; exact k2
    refine ⟨k3, trivial, ?_⟩
    intro c hc
    cases pa <;> simp_all [SERVO_CHANNELS] <;> rcases hc with h | h | h | h <;> simp [h]

set_option maxHeartbeats 1000000 in
/-- Every event decoded from an `EV_ABS` raw event addresses only channels
below 4. -/
theorem decode_abs_channelsOK (isPS3 idle : Bool) (code : Nat) (value : ℤ)
    (e : Unified.UEvent) (h : Unified.decode_abs isPS3 idle code value = some e) :
    eventChannelsOK e := by
  unfold Unified.decode_abs at h
  split_ifs at h <;>
    first
      | exact Option.noConfusion h
      | (injection h with h2; subst h2; norm_num [eventChannelsOK])

set_option maxHeartbeats 1000000 in
/-- Every event decoded from a PS3 button code addresses only channels
below 4. -/
theorem decode_key_ps3_channelsOK (code : Nat)
    (e : Unified.UEvent) (h : Unified.decode_key_ps3 code = some e) :
    eventChannelsOK e := by
  unfold Unified.decode_key_ps3 at h
  split_ifs at h <;>
    first
      | exact Option.noConfusion h
      | (injection h with h2; subst h2; norm_num [eventChannelsOK])

set_option maxHeartbeats 1000000 in
/-- Every event decoded from a non-PS3 button code addresses only channels
below 4. -/
theorem decode_key_other_channelsOK (code : Nat)
    (e : Unified.UEvent) (h : Unified.decode_key_other code = some e) :
    eventChannelsOK e := by
  unfold Unified.decode_key_other at h
  split_ifs at h <;>
    first
      | exact Option.noConfusion h
      | (injection h with h2; subst h2; norm_num [eventChannelsOK])

/-- Every event decoded from a raw input event addresses only channels
below 4. -/
theorem decode_event_channelsOK (isPS3 idle : Bool) (etype code : Nat) (value : ℤ)
    (e : Unified.UEvent) (h : Unified.decode_event isPS3 idle etype code value = some e) :
    eventChannelsOK e := by
  unfold Unified.decode_event Unified.decode_key at h
  split_ifs at h <;>
    first
      | exact Option.noConfusion h
      | exact decode_abs_channelsOK _ _ _ _ _ h
      | exact decode_key_ps3_channelsOK _ _ h
      | exact decode_key_other_channelsOK _ _ h

/-- One step on a decoded event preserves the key sets of `servo_positions`
and `hold_state` and commands only channels of `SERVO_CHANNELS`. -/
theorem ustep_channels (pa : Bool) (s : Unified.UState) (e : Unified.UEvent)
    (hok : eventChannelsOK e)
    (hpos : dictKeys s.positions = [0, 1, 2, 3])
    (hhold : dictKeys s.hold = [0, 1, 2, 3]) :
    dictKeys (Unified.ustep pa s e).1.positions = [0, 1, 2, 3]
    ∧ dictKeys (Unified.ustep pa s e).1.hold = [0, 1, 2, 3]
    ∧ ∀ c ∈ (Unified.ustep pa s e).2, c.channel ∈ SERVO_CHANNELS := by
  cases e with
  | joy channel value =>
    obtain ⟨hA, hB, hC⟩ := move_servo_channels pa s channel value hok hpos
    have hB2 : dictKeys (Unified.move_servo pa s channel value).1.hold = [0, 1, 2, 3] := by
      rw [hB]; exact hhold
    exact ⟨hA, hB2, hC⟩
  | accel channel value center rangeArg =>
    obtain ⟨hA, hB, hC⟩ := move_servo_accel_channels pa s channel value center rangeArg hok hpos
    have hB2 : dictKeys (Unified.move_servo_accel pa s channel value center rangeArg).1.hold
        = [0, 1, 2, 3] := by
      rw [hB]; exact hhold
    exact ⟨hA, hB2, hC⟩
  | allServos angle =>
    obtain ⟨hA, hB, hC⟩ := move_all_servos_channels pa s angle hpos
    have hB2 : dictKeys (Unified.move_all_servos pa s angle).1.hold = [0, 1, 2, 3] := by
      rw [hB]; exact hhold
    exact ⟨hA, hB2, hC⟩
  | toggleHold channel =>
    refine ⟨hpos, ?_, ?_⟩
    · show dictKeys (dictSet s.hold channel (!dictGet s.hold channel false)) = _
      rw [dictKeys_dictSet _ _ _ (mem_keys_of_lt_four _ _ hok hhold)]
      exact hhold
    · intro c hc
      simp [Unified.ustep] at hc
  | toggleLock =>
    refine ⟨hpos, hhold, ?_⟩
    intro c hc
    simp [Unified.ustep] at hc
  | speedUp =>
    refine ⟨hpos, hhold, ?_⟩
    intro c hc
    simp [Unified.ustep] at hc
  | speedDown =>
    refine ⟨hpos, hhold, ?_⟩
    intro c hc
    simp [Unified.ustep] at hc
  | calibrate =>
    obtain ⟨hA0, hB0, hC0⟩ := move_all_servos_channels pa s 0 hpos
    obtain ⟨hA1, hB1, hC1⟩ :=
      move_all_servos_channels pa (Unified.move_all_servos pa s 0).1 180 hA0
    obtain ⟨hA2, hB2, hC2⟩ := move_all_servos_channels pa
      (Unified.move_all_servos pa (Unified.move_all_servos pa s 0).1 180).1 90 hA1
    refine ⟨hA2, ?_, ?_⟩
    · show dictKeys (Unified.move_all_servos pa
          (Unified.move_all_servos pa (Unified.move_all_servos pa s 0).1 180).1 90).1.hold
        = [0, 1, 2, 3]
      rw [hB2, hB1, hB0]
      exact hhold
    · show ∀ c ∈ ((Unified.move_all_servos pa s 0).2
          ++ (Unified.move_all_servos pa (Unified.move_all_servos pa s 0).1 180).2)
          ++ (Unified.move_all_servos pa
              (Unified.move_all_servos pa (Unified.move_all_servos pa s 0).1 180).1 90).2,
        c.channel ∈ SERVO_CHANNELS
      intro c hc
      rcases List.mem_append.mp hc with hc | hc
      · rcases List.mem_append.mp hc with hc | hc
        · exact hC0 c hc
        · exact hC1 c hc
      · exact hC2 c hc

/-- Every PWM command of one CSV row batch targets a channel of
`SERVO_CHANNELS`. -/
theorem run_csv_row_channels (pa : Bool) (angles : List ℤ) :
    ∀ c ∈ Unified.run_csv_row pa angles, c.channel ∈ SERVO_CHANNELS := by
  intro c hc
  unfold Unified.run_csv_row at hc
  split at hc
  · obtain ⟨p, hp, rfl⟩ := List.mem_map.mp hc
    have hlt : p.1 < SERVO_CHANNELS.length := by
      have := (List.mem_filter.mp hp).2
      exact of_decide_eq_true this
    have h4 : p.1 < 4 := by simpa [SERVO_CHANNELS] using hlt
    rcases p with ⟨i, a⟩
    simp only at h4 ⊢
    interval_cases i <;> decide
  · simp at hc

/-- Every PWM command CSV playback issues targets a channel of
`SERVO_CHANNELS`. -/
theorem run_csv_mode_channels :
    ∀ (pa : Bool) (rows : List (List String)),
      ∀ batch ∈ Unified.run_csv_mode pa rows, ∀ c ∈ batch,
        c.channel ∈ SERVO_CHANNELS := by
  intro pa rows batch hb
  simp only [Unified.run_csv_mode] at hb
  split at hb
  · simp at hb
  · rw [run_csv_loop_eq] at hb
    obtain ⟨angles, _, rfl⟩ := List.mem_map.mp hb
    exact run_csv_row_channels pa angles

/-- The `move_servo` of `xbox_controller_reader_v11.py` preserves the key
set for the channels 0-3 its event loop dispatches and commands only its
own channel. -/
theorem XV11_move_servo_channels (x : XV11.XState) (channel : Nat) (value : ℤ)
    (hch : channel < 4) (hkeys : dictKeys x.positions = [0, 1, 2, 3]) :
    dictKeys (XV11.move_servo x channel value).1.positions = [0, 1, 2, 3]
    ∧ (XV11.move_servo x channel value).1.hold = x.hold
    ∧ ∀ c ∈ (XV11.move_servo x channel value).2, c.channel ∈ SERVO_CHANNELS := by
  unfold XV11.move_servo
  split
  · refine ⟨hkeys, rfl, ?_⟩
    intro c hc
    simp at hc
  · refine ⟨?_, rfl, ?_⟩
    · show dictKeys (dictSet x.positions channel (XV11.joystick_to_pwm value).2) = _
      rw [dictKeys_dictSet _ _ _ (mem_keys_of_lt_four _ _ hch hkeys)]
      exact hkeys
    · show ∀ c ∈ [PwmCmd.mk channel 0 (XV11.joystick_to_pwm value).1],
        c.channel ∈ SERVO_CHANNELS
      intro c hc
      rw [List.mem_singleton] at hc
      subst hc
      show channel ∈ SERVO_CHANNELS
      simp [SERVO_CHANNELS]
      omega

/-- The `move_all_servos` of `xbox_controller_reader_v11.py` preserves the
key set and commands only channels of `range(4)`. -/
theorem XV11_move_all_channels (x : XV11.XState) (angle : ℤ)
    (hkeys : dictKeys x.positions = [0, 1, 2, 3]) :
    dictKeys (XV11.move_all_servos x angle).1.positions = [0, 1, 2, 3]
    ∧ ∀ c ∈ (XV11.move_all_servos x angle).2, c.channel ∈ SERVO_CHANNELS := by
  unfold XV11.move_all_servos
  split
  · refine ⟨hkeys, ?_⟩
    intro c hc
    simp at hc
  · rw [show List.range 4 = [0, 1, 2, 3] from rfl]
    simp only [List.foldl_cons, List.foldl_nil]
    have k0 : dictKeys (dictSet x.positions 0 angle) = [0, 1, 2, 3] := by
      rw [dictKeys_dictSet _ _ _ (mem_keys_of_lt_four _ _ (by omega) hkeys)]; exact hkeys
    have k1 : dictKeys (dictSet (dictSet x.positions 0 angle) 1 angle) = [0, 1, 2, 3] := by
      rw [dictKeys_dictSet _ _ _ (mem_keys_of_lt_four _ _ (by omega) k0)]; exact k0
    have k2 : dictKeys (dictSet (dictSet (dictSet x.positions 0 angle) 1 angle) 2 angle)
        = [0, 1, 2, 3] := by
      rw [dictKeys_dictSet _ _ _ (mem_keys_of_lt_four _ _ (by omega) k1)]; exact k1
    have k3 : dictKeys (dictSet (dictSet (dictSet (dictSet x.positions 0 angle) 1 angle)
        2 angle) 3 angle) = [0, 1, 2, 3] := by
      rw [dictKeys_dictSet _ _ _ (mem_keys_of_lt_four _ _ (by omega) k2)]; exact k2
    refine ⟨k3, ?_⟩
    intro c hc
    simp_all [SERVO_CHANNELS]
    rcases hc with h | h | h | h <;> simp [h]

/-- The web-UI `move_servo` issues commands only on its given channel. -/
theorem SCB_move_servo_channel (hold : Bool) (channel : Nat) (value : ℤ)
    (is_joystick : Bool) (current : ℤ) (speed : ℚ) :
    ∀ c ∈ (SCB.move_servo hold channel value is_joystick current speed).2,
      c.channel = channel := by
  intro c hc
  simp only [SCB.move_servo] at hc
  split_ifs at hc <;> simp_all

/-- The web-UI `move_all_servos` issues commands only on channels of
`SERVO_CHANNELS`. -/
theorem SCB_move_all_channels (hold : List (Nat × Bool)) (positions : List (Nat × ℤ))
    (angle : ℤ) :
    ∀ c ∈ (SCB.move_all_servos hold positions angle).2, c.channel ∈ SERVO_CHANNELS := by
  intro c hc
  simp only [SCB.move_all_servos, SERVO_CHANNELS, List.foldl_cons, List.foldl_nil] at hc
  split_ifs at hc <;> simp_all [SERVO_CHANNELS] <;> casesm* _ ∨ _ <;> simp_all

/-- The web hold command preserves the key set when the supplied channel is
below 4. -/
theorem webHoldSet_keys (hold : List (Nat × Bool)) (channel : Nat) (state : Bool)
    (hch : channel < 4) (hkeys : dictKeys hold = [0, 1, 2, 3]) :
    dictKeys (SCB.webHoldSet hold channel state) = [0, 1, 2, 3] := by
  unfold SCB.webHoldSet
  rw [dictKeys_dictSet _ _ _ (mem_keys_of_lt_four _ _ hch hkeys)]
  exact hkeys

/-- C7 fails as stated on `servo_controller_best.py`: its web `/control`
hold command writes the web-supplied channel into `hold_state` without
validation, so a request with channel 9 grows the key set of `hold_state`
from `[0, 1, 2, 3]` to `[0, 1, 2, 3, 9]`. -/
theorem web_hold_keyset_escape :
    dictKeys SCB.hold_state = [0, 1, 2, 3]
    ∧ dictKeys (SCB.webHoldSet SCB.hold_state 9 true) = [0, 1, 2, 3, 9]
    ∧ dictKeys (SCB.webHoldSet SCB.hold_state 9 true) ≠ [0, 1, 2, 3] := by
  decide

/-- C7 (amended): every PWM command targets a channel in `{0, 1, 2, 3}`
across the three scripts, and the `{0, 1, 2, 3}` key sets are preserved by
every controller-driven operation: stepping the unified controller on any
event decoded from a raw input event keeps the key sets of
`servo_positions` and `hold_state` equal to `[0, 1, 2, 3]` (their initial
key sets) and issues PWM commands only on channels of
`SERVO_CHANNELS = [0, 1, 2, 3]`, and so do CSV playback, the v11 move
functions on the channels 0-3 their event loop dispatches, and the web-UI
move functions; the web `/control` hold command of
`servo_controller_best.py` preserves the key set only for supplied
channels below 4 — an out-of-range web channel inserts a new key into its
`hold_state` (see the counterexample). -/
theorem channels_zero_to_three :
    (∀ (pa isPS3 idle : Bool) (etype code : Nat) (value : ℤ) (e : Unified.UEvent)
        (s : Unified.UState),
      Unified.decode_event isPS3 idle etype code value = some e →
      dictKeys s.positions = [0, 1, 2, 3] →
      dictKeys s.hold = [0, 1, 2, 3] →
      dictKeys (Unified.ustep pa s e).1.positions = [0, 1, 2, 3]
      ∧ dictKeys (Unified.ustep pa s e).1.hold = [0, 1, 2, 3]
      ∧ ∀ c ∈ (Unified.ustep pa s e).2, c.channel ∈ SERVO_CHANNELS)
    ∧ (∀ (pa : Bool) (rows : List (List String)),
        ∀ batch ∈ Unified.run_csv_mode pa rows, ∀ c ∈ batch,
          c.channel ∈ SERVO_CHANNELS)
    ∧ dictKeys Unified.initU.positions = [0, 1, 2, 3]
    ∧ dictKeys Unified.initU.hold = [0, 1, 2, 3]
    ∧ (∀ (x : XV11.XState) (channel : Nat) (value : ℤ),
        channel < 4 → dictKeys x.positions = [0, 1, 2, 3] →
        dictKeys (XV11.move_servo x channel value).1.positions = [0, 1, 2, 3]
        ∧ (XV11.move_servo x channel value).1.hold = x.hold
        ∧ ∀ c ∈ (XV11.move_servo x channel value).2, c.channel ∈ SERVO_CHANNELS)
    ∧ (∀ (x : XV11.XState) (angle : ℤ), dictKeys x.positions = [0, 1, 2, 3] →
        dictKeys (XV11.move_all_servos x angle).1.positions = [0, 1, 2, 3]
        ∧ ∀ c ∈ (XV11.move_all_servos x angle).2, c.channel ∈ SERVO_CHANNELS)
    ∧ dictKeys XV11.initX.positions = [0, 1, 2, 3]
    ∧ dictKeys XV11.initX.hold = [0, 1, 2, 3]
    ∧ (∀ (hold : Bool) (channel : Nat) (value : ℤ) (is_joystick : Bool)
        (current : ℤ) (speed : ℚ),
        ∀ c ∈ (SCB.move_servo hold channel value is_joystick current speed).2,
          c.channel = channel)
    ∧ (∀ (hold : List (Nat × Bool)) (positions : List (Nat × ℤ)) (angle : ℤ),
        ∀ c ∈ (SCB.move_all_servos hold positions angle).2, c.channel ∈ SERVO_CHANNELS)
    ∧ (∀ (hold : List (Nat × Bool)) (channel : Nat) (state : Bool),
        channel < 4 → dictKeys hold = [0, 1, 2, 3] →
        dictKeys (SCB.webHoldSet hold channel state) = [0, 1, 2, 3])
    ∧ dictKeys SCB.hold_state = [0, 1, 2, 3] := by
  refine ⟨?_, run_csv_mode_channels, by decide, by decide,
    XV11_move_servo_channels, XV11_move_all_channels, by decide, by decide,
    SCB_move_servo_channel, SCB_move_all_channels, webHoldSet_keys, by decide⟩
  intro pa isPS3 idle etype code value e s hdec hpos hhold
  exact ustep_channels pa s e
    (decode_event_channelsOK isPS3 idle etype code value e hdec) hpos hhold

/-- Closed witness for C7: a left-stick event on the initial state. -/
theorem channels_zero_to_three_witness :
    Unified.decode_event false false 3 0 5 = some (Unified.UEvent.joy 0 5)
    ∧ (dictKeys (Unified.ustep true Unified.initU (Unified.UEvent.joy 0 5)).1.positions
        = [0, 1, 2, 3]
      ∧ dictKeys (Unified.ustep true Unified.initU (Unified.UEvent.joy 0 5)).1.hold
        = [0, 1, 2, 3]
      ∧ ∀ c ∈ (Unified.ustep true Unified.initU (Unified.UEvent.joy 0 5)).2,
          c.channel ∈ SERVO_CHANNELS) :=
  ⟨by decide,
   channels_zero_to_three.1 true false false 3 0 5 (Unified.UEvent.joy 0 5) Unified.initU
     (by decide) (by decide) (by decide)⟩

end RaspberryServo
